import Mathlib

/-!
Verification of `add.py` (python-log-test-example)

Shallow embedding of `src/add.py` and of the parts of the Python runtime it
relies on (decimal rendering of `int`, `str()` of a tuple of ints, the
`logging` delivery mechanism as exercised by `src/test.py`, and `int(str)`
parsing used by the CLI entry point).

Source, `src/add.py`:
```
logger = logging.getLogger(__name__)

def add(*vargs):
    logger.debug('Calculating the sum of %s', vargs)
    res = sum(vargs)
    logger.debug('Result is %d', res)
    return res

if __name__ == '__main__':
    logging.basicConfig(format='%(message)s', level=logging.INFO)
    a = add(*[int(i) for i in sys.argv[1:]])
    logger.info('%d', a)
```
-/

/-- Decimal digit character for `d % 10`, as used by Python's decimal
rendering of integers.  Call sites always pass a value `< 10`; the `% 10`
only makes the function total. -/
def digitChar (d : Nat) : Char :=
  match d % 10 with
  | 0 => '0' | 1 => '1' | 2 => '2' | 3 => '3' | 4 => '4'
  | 5 => '5' | 6 => '6' | 7 => '7' | 8 => '8' | _ => '9'

/-- Decimal digit list of a natural number, fuel-indexed so that the
definition is structurally recursive (any `fuel > n`'s base-10 digit count
works; we pass `n + 1`). -/
def natDigitsCore (fuel n : Nat) : List Char :=
  match fuel with
  | 0 => []
  | fuel + 1 =>
    if n < 10 then [digitChar n]
    else natDigitsCore fuel (n / 10) ++ [digitChar n]

/-- Decimal digits of `n`, most significant first: Python's `str(n)` for a
nonnegative `int`. -/
def natDigits (n : Nat) : List Char := natDigitsCore (n + 1) n

/-- Python's `str(i)` (equally `'%d' % i`) for an `int`: decimal digits,
preceded by `-` for negative values. -/
def intStr (i : Int) : String :=
  match i with
  | Int.ofNat n => ⟨natDigits n⟩
  | Int.negSucc n => ⟨'-' :: natDigits (n + 1)⟩

/-- `", "`-separated concatenation, as inside Python's tuple rendering. -/
def commaSep : List String → String
  | [] => ""
  | [s] => s
  | s :: rest => s ++ ", " ++ commaSep rest

/-- Python's `str(vargs)` for a tuple of ints: `()` when empty, a trailing
comma for a one-element tuple (`(5,)`), otherwise `", "`-separated elements
in parentheses. -/
def tupleRepr (xs : List Int) : String :=
  match xs with
  | [] => "()"
  | [x] => "(" ++ intStr x ++ ",)"
  | _ => "(" ++ commaSep (xs.map intStr) ++ ")"

/-- Python's `sum(vargs)`: a left fold of `+` starting from `0`. -/
def pySum (xs : List Int) : Int := xs.foldl (· + ·) 0

/-- Logging severity levels used by `add.py`, with Python's numeric values. -/
inductive Level where
  | debug
  | info
deriving DecidableEq, Repr

/-- Python's numeric value of a level (`logging.DEBUG = 10`,
`logging.INFO = 20`). -/
def Level.toNat : Level → Nat
  | .debug => 10
  | .info => 20

/-- A log record as produced by the `add` logger: a severity level and the
rendered message text (`msg % args`, which for the records of `add.py`
depends only on the arguments interpolated). -/
structure LogRecord where
  level : Level
  msg : String
deriving DecidableEq, Repr

/-- Embedding of `add(*vargs)` from `src/add.py`: returns the sum of the
arguments together with the two trace records passed to the logger, in
program order.  `logger.debug('Calculating the sum of %s', vargs)` renders
`vargs` with the tuple convention; `logger.debug('Result is %d', res)`
renders the sum in decimal. -/
def add (vargs : List Int) : Int × List LogRecord :=
  let rec1 : LogRecord := ⟨.debug, "Calculating the sum of " ++ tupleRepr vargs⟩
  let res := pySum vargs
  let rec2 : LogRecord := ⟨.debug, "Result is " ++ intStr res⟩
  (res, [rec1, rec2])

/-! ## The logging delivery mechanism exercised by `src/test.py`

`test.py` observes the records of `add` through two sinks: a
`logging.StreamHandler` writing to a spooled temporary file, whose contents
are then split into lines, and a `logging.handlers.QueueHandler` feeding a
`queue.SimpleQueue`, from which each record's `getMessage()` is read. -/

/-- Raw line splitting of a character list at `'\n'` (the only line
separator occurring in this program's output). -/
def splitLinesChars : List Char → List (List Char)
  | [] => [[]]
  | c :: cs =>
    let rest := splitLinesChars cs
    if c = '\n' then [] :: rest
    else
      match rest with
      | [] => [[c]]
      | l :: ls => (c :: l) :: ls

/-- Python's `str.splitlines()` restricted to `'\n'` separators: split at
newlines and drop the empty fragment after a final newline. -/
def splitlines (s : String) : List String :=
  let parts := splitLinesChars s.data
  let parts := if parts.getLast? = some [] then parts.dropLast else parts
  parts.map fun l => ⟨l⟩

/-- What a `StreamHandler` with the default `'%(message)s'` formatting
writes for a list of records: each rendered message followed by the
handler's terminator `'\n'`, concatenated in order. -/
def streamContents (recs : List LogRecord) : String :=
  (recs.map fun r => r.msg ++ "\n").foldr (· ++ ·) ""

/-- The two sink mechanisms used by the tests. -/
inductive Sink where
  | stream
  | queue
deriving DecidableEq, Repr

/-- Retrieving the rendered record texts from a sink: for the stream sink,
read the buffer back and split it into lines (`test_add_check_log_file`);
for the queue sink, pop each record and take its `getMessage()`
(`test_add_check_log_queue`). -/
def observe : Sink → List LogRecord → List String
  | .stream, recs => splitlines (streamContents recs)
  | .queue, recs => recs.map (·.msg)

/-- A call of `add` under a logging configuration: `effLevel` is the
effective numeric level of the `add` logger and `sinks` the attached
handlers.  Returns the result of `add`, the trace records its two
`logger.debug` calls produce (which the function produces regardless of
configuration), and each sink's retrieved texts.  A record reaches the
handlers iff its level is at least the effective level; with no sink
attached nothing is delivered anywhere and the call still completes. -/
def addWith (effLevel : Nat) (sinks : List Sink) (xs : List Int) :
    Int × List LogRecord × List (List String) :=
  let r := add xs
  let enabled := r.2.filter fun rec => effLevel ≤ rec.level.toNat
  (r.1, r.2, sinks.map fun s => observe s enabled)

/-! ## The CLI entry point (`__main__` block of `src/add.py`) -/

/-- Characters stripped by Python's `int(str)` around the literal (ASCII
whitespace; the non-ASCII whitespace Python also accepts never appears in
command-line arguments of interest here). -/
def pySpace (c : Char) : Bool :=
  c = ' ' || c = '\t' || c = '\n' || c = '\r' || c = '\x0b' || c = '\x0c'

/-- Strip `pySpace` characters from both ends. -/
def pyStrip (l : List Char) : List Char :=
  ((l.dropWhile pySpace).reverse.dropWhile pySpace).reverse

/-- Accumulating decimal parser for the remainder of a Python integer
literal: digits, with single underscores allowed between digits. -/
def parseDigitsAux (acc : Nat) : List Char → Option Nat
  | [] => some acc
  | c :: cs =>
    if c.isDigit then parseDigitsAux (acc * 10 + (c.toNat - 48)) cs
    else if c = '_' then
      match cs with
      | [] => none
      | c2 :: cs2 =>
        if c2.isDigit then parseDigitsAux (acc * 10 + (c2.toNat - 48)) cs2
        else none
    else none

/-- A Python decimal digit run (`digit (["_"] digit)*`): nonempty, starts
with a digit. -/
def parseDigits : List Char → Option Nat
  | [] => none
  | c :: cs => if c.isDigit then parseDigitsAux (c.toNat - 48) cs else none

/-- Python's `int(s)` on a decimal string: strip surrounding whitespace,
allow one optional sign, then a digit run; `none` models the `ValueError`
raised for anything else. -/
def pyInt (s : String) : Option Int :=
  match pyStrip s.data with
  | '+' :: rest => (parseDigits rest).map Int.ofNat
  | '-' :: rest => (parseDigits rest).map fun n => -(n : Int)
  | rest => (parseDigits rest).map Int.ofNat

/-- The list comprehension `[int(i) for i in sys.argv[1:]]`: converts every
argument left to right; the first failing conversion aborts the whole
comprehension (before `add` is ever invoked). -/
def parseAll : List String → Option (List Int)
  | [] => some []
  | a :: rest =>
    match pyInt a, parseAll rest with
    | some i, some is => some (i :: is)
    | _, _ => none

/-- Observable outcome of one process invocation of `add.py`.
`logging.basicConfig(format='%(message)s', level=logging.INFO)` attaches a
`StreamHandler` on `sys.stderr` to the root logger; no code path writes to
`sys.stdout`.  `stderrLog` is the text that handler writes (the traceback
printed for an uncaught `ValueError` is not modelled); `addCalls` lists the
invocations of `add`; `emitted` the records delivered to the handler. -/
structure CliResult where
  exitZero : Bool
  stdout : String
  stderrLog : String
  addCalls : List (List Int)
  emitted : List LogRecord
deriving DecidableEq, Repr

/-- Embedding of the `__main__` block: parse all arguments with `int`
(an uncaught `ValueError` exits nonzero before `add` runs), call `add`
once, then `logger.info('%d', a)`.  The root logger's level is `INFO`, so
the two `DEBUG` records of `add` are filtered out and only the final
`INFO` record reaches the stderr handler. -/
def cliMain (args : List String) : CliResult :=
  match parseAll args with
  | none => ⟨false, "", "", [], []⟩
  | some ints =>
    let r := add ints
    let infoRec : LogRecord := ⟨.info, intStr r.1⟩
    let delivered :=
      (r.2 ++ [infoRec]).filter fun rec => Level.toNat .info ≤ rec.level.toNat
    ⟨true, "", streamContents delivered, [ints], delivered⟩

/-! ## Helper lemmas -/

theorem pySum_eq_sum (xs : List Int) : pySum xs = xs.sum := by
  rw [pySum, List.sum_eq_foldl]

theorem digitChar_ne_newline (d : Nat) : digitChar d ≠ '\n' := by
  unfold digitChar
  split <;> decide

theorem natDigitsCore_ne_newline (fuel n : Nat) :
    ∀ c ∈ natDigitsCore fuel n, c ≠ '\n' := by
  induction fuel generalizing n with
  | zero => intro c hc; simp [natDigitsCore] at hc
  | succ fuel ih =>
    intro c hc
    unfold natDigitsCore at hc
    split at hc
    · simp at hc
      exact hc ▸ digitChar_ne_newline n
    · rcases List.mem_append.mp hc with h | h
      · exact ih _ c h
      · simp at h
        exact h ▸ digitChar_ne_newline n

theorem ne_newline_of_mem {l : List Char} (hl : '\n' ∉ l) {c : Char}
    (hc : c ∈ l) : c ≠ '\n' := fun h => hl (h ▸ hc)

theorem intStr_ne_newline (i : Int) : ∀ c ∈ (intStr i).data, c ≠ '\n' := by
  intro c hc
  cases i with
  | ofNat n => exact natDigitsCore_ne_newline _ _ c hc
  | negSucc n =>
    have hc2 : c ∈ '-' :: natDigits (n + 1) := hc
    rcases List.mem_cons.mp hc2 with rfl | h
    · decide
    · exact natDigitsCore_ne_newline _ _ c h

theorem commaSep_ne_newline (L : List String)
    (h : ∀ s ∈ L, ∀ c ∈ s.data, c ≠ '\n') :
    ∀ c ∈ (commaSep L).data, c ≠ '\n' := by
  induction L with
  | nil => intro c hc; simp [commaSep] at hc
  | cons s rest ih =>
    cases rest with
    | nil =>
      intro c hc
      exact h s (by simp) c hc
    | cons t ts =>
      intro c hc
      have hc2 : c ∈ (s.data ++ ", ".data) ++ (commaSep (t :: ts)).data := by
        simpa [commaSep, String.data_append] using hc
      rcases List.mem_append.mp hc2 with hc3 | hc3
      · rcases List.mem_append.mp hc3 with hc4 | hc4
        · exact h s (by simp) c hc4
        · exact ne_newline_of_mem (by decide) hc4
      · exact ih (fun u hu => h u (List.mem_cons_of_mem s hu)) c hc3

theorem tupleRepr_ne_newline (xs : List Int) :
    ∀ c ∈ (tupleRepr xs).data, c ≠ '\n' := by
  match xs with
  | [] => intro c hc; exact ne_newline_of_mem (by decide) hc
  | [x] =>
    intro c hc
    have hc2 : c ∈ ("(".data ++ (intStr x).data) ++ ",)".data := by
      simpa [tupleRepr, String.data_append] using hc
    rcases List.mem_append.mp hc2 with hc3 | hc3
    · rcases List.mem_append.mp hc3 with hc4 | hc4
      · exact ne_newline_of_mem (by decide) hc4
      · exact intStr_ne_newline x c hc4
    · exact ne_newline_of_mem (by decide) hc3
  | x :: y :: rest =>
    intro c hc
    have hc2 : c ∈ ("(".data ++ (commaSep ((x :: y :: rest).map intStr)).data)
        ++ ")".data := by
      simpa [tupleRepr, String.data_append] using hc
    rcases List.mem_append.mp hc2 with hc3 | hc3
    · rcases List.mem_append.mp hc3 with hc4 | hc4
      · exact ne_newline_of_mem (by decide) hc4
      · refine commaSep_ne_newline _ ?_ c hc4
        intro s hs
        rcases List.mem_map.mp hs with ⟨i, _, rfl⟩
        exact intStr_ne_newline i
    · exact ne_newline_of_mem (by decide) hc3

theorem add_msg_ne_newline (xs : List Int) :
    ∀ r ∈ (add xs).2, ∀ c ∈ r.msg.data, c ≠ '\n' := by
  intro r hr c hc
  have hr2 : r ∈ [(⟨.debug, "Calculating the sum of " ++ tupleRepr xs⟩ : LogRecord),
      ⟨.debug, "Result is " ++ intStr (pySum xs)⟩] := hr
  rcases List.mem_cons.mp hr2 with rfl | hr3
  · have hc2 : c ∈ "Calculating the sum of ".data ++ (tupleRepr xs).data := by
      simpa [String.data_append] using hc
    rcases List.mem_append.mp hc2 with h | h
    · exact ne_newline_of_mem (by decide) h
    · exact tupleRepr_ne_newline xs c h
  · rcases List.mem_cons.mp hr3 with rfl | hr4
    · have hc2 : c ∈ "Result is ".data ++ (intStr (pySum xs)).data := by
        simpa [String.data_append] using hc
      rcases List.mem_append.mp hc2 with h | h
      · exact ne_newline_of_mem (by decide) h
      · exact intStr_ne_newline _ c h
    · simp at hr4

theorem splitLinesChars_append_newline (l rest : List Char)
    (h : ∀ c ∈ l, c ≠ '\n') :
    splitLinesChars (l ++ '\n' :: rest) = l :: splitLinesChars rest := by
  induction l with
  | nil => simp [splitLinesChars]
  | cons c l ih =>
    have hc : ¬ c = '\n' := h c (by simp)
    simp only [List.cons_append, splitLinesChars, List.append_eq]
    rw [ih (fun x hx => h x (List.mem_cons_of_mem c hx))]
    simp [hc]

theorem streamContents_cons (r : LogRecord) (recs : List LogRecord) :
    streamContents (r :: recs) = (r.msg ++ "\n") ++ streamContents recs := rfl

theorem splitLinesChars_streamContents (recs : List LogRecord)
    (h : ∀ r ∈ recs, ∀ c ∈ r.msg.data, c ≠ '\n') :
    splitLinesChars (streamContents recs).data =
      recs.map (fun r => r.msg.data) ++ [[]] := by
  induction recs with
  | nil => rfl
  | cons r rest ih =>
    have hdata : (streamContents (r :: rest)).data =
        r.msg.data ++ '\n' :: (streamContents rest).data := by
      rw [streamContents_cons]
      simp [String.data_append]
    rw [hdata, splitLinesChars_append_newline _ _ (h r (by simp)),
      ih (fun u hu => h u (List.mem_cons_of_mem r hu))]
    simp

theorem splitlines_streamContents (recs : List LogRecord)
    (h : ∀ r ∈ recs, ∀ c ∈ r.msg.data, c ≠ '\n') :
    splitlines (streamContents recs) = recs.map (·.msg) := by
  unfold splitlines
  rw [splitLinesChars_streamContents recs h]
  have hlast : ((recs.map fun (r : LogRecord) => r.msg.data) ++ [[]]).getLast? =
      some ([] : List Char) := by
    simp [List.getLast?_append]
  simp [hlast, List.map_map]

theorem parseAll_eq_none : ∀ (args : List String) (a : String),
    a ∈ args → pyInt a = none → parseAll args = none := by
  intro args
  induction args with
  | nil => intro a ha _; simp at ha
  | cons b rest ih =>
    intro a ha hnone
    rcases List.mem_cons.mp ha with rfl | h
    · unfold parseAll
      rw [hnone]
    · unfold parseAll
      rw [ih a h hnone]
      cases pyInt b <;> rfl

/-! ## The claims -/

/-- C1: for every finite sequence of integers (the empty one included),
`add` returns the arithmetic sum of the sequence, and the empty sequence
yields 0. -/
theorem add_returns_sum (xs : List Int) :
    (add xs).1 = xs.sum ∧ (add ([] : List Int)).1 = 0 := by
  refine ⟨?_, rfl⟩
  show pySum xs = xs.sum
  exact pySum_eq_sum xs

/-- C2: one call of `add` emits exactly two trace-level (DEBUG) records, in
order: first `Calculating the sum of ` followed by the tuple rendering of
the inputs, then `Result is ` followed by the decimal rendering of the
returned sum; the return value is the sum. -/
theorem add_emits_two_trace_records (xs : List Int) :
    (add xs).2 = [⟨Level.debug, "Calculating the sum of " ++ tupleRepr xs⟩,
      ⟨Level.debug, "Result is " ++ intStr xs.sum⟩] ∧ (add xs).1 = xs.sum := by
  have h := pySum_eq_sum xs
  constructor
  · show [(⟨Level.debug, "Calculating the sum of " ++ tupleRepr xs⟩ : LogRecord),
      ⟨Level.debug, "Result is " ++ intStr (pySum xs)⟩] = _
    rw [h]
  · exact h

/-- C3: on input `(1, 2, 3)`, `add` returns 6 and emits, in order, records
rendering as `Calculating the sum of (1, 2, 3)` and `Result is 6`. -/
theorem add_one_two_three :
    add [1, 2, 3] = (6, [⟨Level.debug, "Calculating the sum of (1, 2, 3)"⟩,
      ⟨Level.debug, "Result is 6"⟩]) := by decide

/-- C4, counterexample: on arguments `1 2 3` the CLI exits with status 0
but writes nothing to standard output — the final `logger.info` line goes
through the `logging.basicConfig` handler, which writes to standard error,
so the claim "prints 6 to standard output" fails. -/
theorem cliMain_stdout_not_six :
    (cliMain ["1", "2", "3"]).exitZero = true ∧
    (cliMain ["1", "2", "3"]).stdout = "" ∧
    (cliMain ["1", "2", "3"]).stdout ≠ "6" ∧
    (cliMain ["1", "2", "3"]).stdout ≠ "6\n" := by decide

/-- C4, amended: invoking the CLI with arguments `1 2 3` exits with status
0, writes the line `6` to standard error (via the root logger's handler)
and nothing to standard output; invoking it with any non-integer argument
exits with nonzero status and writes nothing to standard output. -/
theorem cliMain_stderr_and_exit :
    ((cliMain ["1", "2", "3"]).exitZero = true ∧
      (cliMain ["1", "2", "3"]).stderrLog = "6\n" ∧
      (cliMain ["1", "2", "3"]).stdout = "") ∧
    ∀ (args : List String) (a : String), a ∈ args → pyInt a = none →
      (cliMain args).exitZero = false ∧ (cliMain args).stdout = "" := by
  refine ⟨by decide, ?_⟩
  intro args a ha hnone
  unfold cliMain
  rw [parseAll_eq_none args a ha hnone]
  exact ⟨rfl, rfl⟩

/-- C4, witness for the amended theorem at the concrete input
`["1", "x"]` with non-integer argument `"x"`. -/
theorem cliMain_stderr_and_exit_witness :
    "x" ∈ ["1", "x"] ∧ pyInt "x" = none ∧
    ((cliMain ["1", "x"]).exitZero = false ∧
      (cliMain ["1", "x"]).stdout = "") :=
  ⟨by decide, by decide,
    cliMain_stderr_and_exit.2 ["1", "x"] "x" (by decide) (by decide)⟩

/-- C5: with the tests' effective level (DEBUG) both records are delivered,
and retrieving them from a buffered stream sink or from an in-memory queue
sink yields the same two rendered strings, in the same order. -/
theorem stream_queue_observe_eq (xs : List Int) :
    ((add xs).2.filter fun r => 10 ≤ r.level.toNat) = (add xs).2 ∧
    observe Sink.stream (add xs).2 = observe Sink.queue (add xs).2 ∧
    observe Sink.queue (add xs).2 =
      ["Calculating the sum of " ++ tupleRepr xs,
        "Result is " ++ intStr (pySum xs)] := by
  refine ⟨rfl, ?_, rfl⟩
  show splitlines (streamContents (add xs).2) = (add xs).2.map (·.msg)
  exact splitlines_streamContents _ (add_msg_ne_newline xs)

/-- C6: for the single-element input `(5,)` the first record renders the
tuple with the trailing comma, not as `(5)`. -/
theorem add_five_trailing_comma :
    ((add [5]).2.map (·.msg)).head? = some "Calculating the sum of (5,)" ∧
    ((add [5]).2.map (·.msg)).head? ≠ some "Calculating the sum of (5)" := by
  decide

/-- C7: with no sink attached, a call of `add` still completes (the model
is a total function), delivers nothing anywhere, and returns the same sum
as the same call with any sinks attached, which is the arithmetic sum. -/
theorem add_no_sink_same_sum (xs : List Int) (effLevel : Nat)
    (sinks : List Sink) :
    (addWith effLevel [] xs).2.2 = [] ∧
    (addWith effLevel [] xs).1 = (addWith effLevel sinks xs).1 ∧
    (addWith effLevel [] xs).1 = xs.sum := by
  refine ⟨rfl, rfl, ?_⟩
  show pySum xs = xs.sum
  exact pySum_eq_sum xs

/-- C8: if any CLI argument fails integer conversion, the comprehension
`[int(i) for i in sys.argv[1:]]` yields no list, so `add` is never called
and no trace records are emitted in that invocation. -/
theorem parse_error_no_add_call (args : List String) (a : String)
    (ha : a ∈ args) (hnone : pyInt a = none) :
    parseAll args = none ∧ (cliMain args).addCalls = [] ∧
      (cliMain args).emitted = [] := by
  have h := parseAll_eq_none args a ha hnone
  refine ⟨h, ?_, ?_⟩ <;> (unfold cliMain; rw [h])

/-- C8, witness at the concrete argument list `["a"]`, whose only element
is not an integer literal. -/
theorem parse_error_no_add_call_witness :
    "a" ∈ ["a"] ∧ pyInt "a" = none ∧
    (parseAll ["a"] = none ∧ (cliMain ["a"]).addCalls = [] ∧
      (cliMain ["a"]).emitted = []) :=
  ⟨by decide, by decide,
    parse_error_no_add_call ["a"] "a" (by decide) (by decide)⟩

/-- C9: `add` is deterministic and configuration-independent — under any
two logging configurations (effective level and attached sinks), the same
argument sequence yields the same sum and the same trace records with the
same rendered text. -/
theorem add_config_independent (xs : List Int) (lvl1 lvl2 : Nat)
    (sinks1 sinks2 : List Sink) :
    (addWith lvl1 sinks1 xs).1 = (addWith lvl2 sinks2 xs).1 ∧
    (addWith lvl1 sinks1 xs).2.1 = (addWith lvl2 sinks2 xs).2.1 :=
  ⟨rfl, rfl⟩

/-- C10: the sum returned by `add` is invariant under permutation of its
arguments. -/
theorem add_perm_invariant (xs ys : List Int) (h : xs.Perm ys) :
    (add xs).1 = (add ys).1 := by
  show pySum xs = pySum ys
  rw [pySum_eq_sum, pySum_eq_sum]
  exact h.sum_eq

/-- C10, witness at the concrete permutation `[1, 2, 3] ~ [3, 1, 2]`. -/
theorem add_perm_invariant_witness :
    List.Perm [1, 2, 3] [3, 1, 2] ∧ (add [1, 2, 3]).1 = (add [3, 1, 2]).1 :=
  ⟨by decide, add_perm_invariant [1, 2, 3] [3, 1, 2] (by decide)⟩
